import Mathlib

/-!
Shallow embedding of the finite-difference gradient / gradient-descent core of
`logic_functions.py`.  Numeric values are modelled as exact rationals (`ℚ`);
1-D numpy arrays are modelled as `List ℚ` (the claims only exercise flat
vectors).  In-place mutation of an array is modelled by threading the list
through the computation explicitly; instrumented variants additionally log the
arguments passed to the objective `f`, thread a caller-chosen state through
`f`, or thread `Except` failure, so that evaluation counts, impure objectives
and raised failures can be reasoned about.
-/

/-- Elementwise vector addition, numpy `a + b` on equal-length 1-D arrays. -/
def vecAdd (a b : List ℚ) : List ℚ := List.zipWith (fun u v => u + v) a b

/-- Elementwise vector subtraction, numpy `a - b`. -/
def vecSub (a b : List ℚ) : List ℚ := List.zipWith (fun u v => u - v) a b

/-- Scalar times vector, numpy `c * v`. -/
def smulV (c : ℚ) (v : List ℚ) : List ℚ := v.map (fun u => c * u)

/-- numpy `np.zeros_like(x)` for a float vector. -/
def zeros_like (x : List ℚ) : List ℚ := x.map (fun _ => 0)

/-- Row `i` of the identity matrix `np.eye n`: the standard basis vector. -/
def eyeRow (n i : ℕ) : List ℚ := (List.range n).map (fun j => if j = i then 1 else 0)

/-- `np.eye n` as a list of rows. -/
def eye (n : ℕ) : List (List ℚ) := (List.range n).map (fun i => eyeRow n i)

/-- `numerical_derivative(f, x, h)` from logic_functions.py line 71:
central difference `(f(x+h) - f(x-h)) / (2*h)`. -/
def numerical_derivative (f : ℚ → ℚ) (x : ℚ) (h : ℚ) : ℚ :=
  (f (x + h) - f (x - h)) / (2 * h)

/-- `numerical_derivative(f, x)` called with the default step `h = 1e-5`. -/
def numerical_derivative_default (f : ℚ → ℚ) (x : ℚ) : ℚ :=
  numerical_derivative f x (1e-5)

/-- `numerical_derivative` with a caller state threaded through every
evaluation of `f`, in source evaluation order: first `f (x+h)`, then
`f (x-h)`.  Instantiating the state with a counter counts evaluations. -/
def numerical_derivativeS {σ : Type} (f : ℚ → σ → ℚ × σ) (x : ℚ) (h : ℚ) (s : σ) : ℚ × σ :=
  let r1 := f (x + h) s
  let r2 := f (x - h) r1.2
  ((r1.1 - r2.1) / (2 * h), r2.2)

/-- `gradient_function(f, x, h)` from logic_functions.py lines 81-96:
`grad = np.zeros_like(x)`, `perturb = np.eye(len(x)) * h`, then for each
`i in range(len(x))`, `grad[i] = (f(x + perturb[i]) - f(x - perturb[i])) / (2*h)`.
The coercion `x = np.array(x, dtype=float)` is the identity on `ℚ` values. -/
def gradient_function (f : List ℚ → ℚ) (x : List ℚ) (h : ℚ) : List ℚ :=
  let perturb := (eye x.length).map (fun row => smulV h row)
  (List.range x.length).foldl
    (fun g i =>
      g.set i ((f (vecAdd x (perturb.getD i [])) - f (vecSub x (perturb.getD i []))) / (2 * h)))
    (zeros_like x)

/-- `gradient_function(f, x)` called with the default step `h = 1e-5`. -/
def gradient_function_default (f : List ℚ → ℚ) (x : List ℚ) : List ℚ :=
  gradient_function f x (1e-5)

/-- `gradient_function` instrumented to log, in order, every argument passed
to `f`; the numeric result is unchanged. -/
def gradient_functionT (f : List ℚ → ℚ) (x : List ℚ) (h : ℚ) : List ℚ × List (List ℚ) :=
  let perturb := (eye x.length).map (fun row => smulV h row)
  (List.range x.length).foldl
    (fun acc i =>
      let a := vecAdd x (perturb.getD i [])
      let b := vecSub x (perturb.getD i [])
      (acc.1.set i ((f a - f b) / (2 * h)), acc.2 ++ [a, b]))
    (zeros_like x, [])

/-- `gradient_function` with the caller-visible array made explicit: the body
first takes a fresh float copy (`x = np.array(x, dtype=float)`, the map below)
and computes only on that copy; the caller buffer is returned alongside the
gradient so the frame condition can be stated. -/
def gradient_functionM (f : List ℚ → ℚ) (x : List ℚ) (h : ℚ) : List ℚ × List ℚ :=
  let xi := x.map (fun v => v)
  (gradient_function f xi h, x)

/-- One update of `gradient_descent`: `x - learning_rate * gradient_function(f, x)`
(the gradient call on line 111 passes no `h`, so the default `1e-5` is used). -/
def gdStep (f : List ℚ → ℚ) (lr : ℚ) (x : List ℚ) : List ℚ :=
  vecSub x (smulV lr (gradient_function_default f x))

/-- The loop of `gradient_descent` (lines 110-113): `num_iterations` times,
compute the gradient, update `x` in place, and append a copy of `x` to the
history accumulator. -/
def gradient_descent_go (f : List ℚ → ℚ) (lr : ℚ) : ℕ → List ℚ → List (List ℚ) → List ℚ × List (List ℚ)
  | 0, x, hist => (x, hist)
  | n + 1, x, hist =>
    let grad := gradient_function_default f x
    let x1 := vecSub x (smulV lr grad)
    gradient_descent_go f lr n x1 (hist ++ [x1])

/-- `gradient_descent(f, init_x, learning_rate, num_iterations)` from
logic_functions.py lines 98-115: the history starts as `[x.copy()]` and the
final `x` together with the history is returned. -/
def gradient_descent (f : List ℚ → ℚ) (init_x : List ℚ) (lr : ℚ) (n : ℕ) :
    List ℚ × List (List ℚ) :=
  gradient_descent_go f lr n init_x [init_x]

/-- The loop of `numerical_gradient` (lines 134-152) with a caller state
threaded through every evaluation of `f` (so `f` may be impure).  The mutable
array `x` is threaded explicitly: per visited index, store `tmp_val`,
write `tmp_val + h` and evaluate, write `tmp_val - h` and evaluate, write the
gradient entry, then restore `tmp_val`.  Returns `(grad, x, state)`. -/
def numerical_gradientS_go {σ : Type} (f : List ℚ → σ → ℚ × σ) (h : ℚ) :
    List ℕ → List ℚ → List ℚ → σ → List ℚ × List ℚ × σ
  | [], x, grad, s => (grad, x, s)
  | idx :: rest, x, grad, s =>
    let tmp_val := x.getD idx 0
    let x1 := x.set idx (tmp_val + h)
    let r1 := f x1 s
    let x2 := x1.set idx (tmp_val - h)
    let r2 := f x2 r1.2
    let grad1 := grad.set idx ((r1.1 - r2.1) / (2 * h))
    let x3 := x2.set idx tmp_val
    numerical_gradientS_go f h rest x3 grad1 r2.2

/-- `numerical_gradient(f, x)` from logic_functions.py lines 119-154 with a
stateful objective: `h` is fixed at `1e-4` (line 130), `grad = np.zeros_like(x)`,
and `np.nditer` visits every index of the (1-D) array once, in order. -/
def numerical_gradientS {σ : Type} (f : List ℚ → σ → ℚ × σ) (x : List ℚ) (s : σ) :
    List ℚ × List ℚ × σ :=
  numerical_gradientS_go f (1e-4) (List.range x.length) x (zeros_like x) s

/-- `numerical_gradient(f, x)` for a pure objective: the stateful embedding
specialised to a unit state. -/
def numerical_gradient (f : List ℚ → ℚ) (x : List ℚ) : List ℚ :=
  (numerical_gradientS (fun v s => (f v, s)) x ()).1

/-- Conversion of a rational to an integer by truncation toward zero: the
semantics of numpy storing a float into an integer-dtype array slot. -/
def truncQ (q : ℚ) : ℤ := if 0 ≤ q then ⌊q⌋ else ⌈q⌉

/-- The loop of `numerical_gradient` run on an integer-dtype array: every
store into `x` or `grad` goes through the array element type, truncating the
float value toward zero (`truncQ`).  The third result component logs, per
visited index, the pair of values actually stored by `x[idx] = float(tmp_val) + h`
and `x[idx] = tmp_val - h`.  Returns `(grad, x, storeLog)`. -/
def numerical_gradient_int_go (f : List ℤ → ℚ) (h : ℚ) :
    List ℕ → List ℤ → List ℤ → List (ℤ × ℤ) → List ℤ × List ℤ × List (ℤ × ℤ)
  | [], x, grad, log => (grad, x, log)
  | idx :: rest, x, grad, log =>
    let tmp_val := x.getD idx 0
    let p1 := truncQ ((tmp_val : ℚ) + h)
    let x1 := x.set idx p1
    let fxh1 := f x1
    let p2 := truncQ ((tmp_val : ℚ) - h)
    let x2 := x1.set idx p2
    let fxh2 := f x2
    let grad1 := grad.set idx (truncQ ((fxh1 - fxh2) / (2 * h)))
    let x3 := x2.set idx tmp_val
    numerical_gradient_int_go f h rest x3 grad1 (log ++ [(p1, p2)])

/-- `numerical_gradient(f, x)` on an integer-dtype array (`np.zeros_like`
then also yields an integer `grad`), with `h` fixed at `1e-4`. -/
def numerical_gradient_int (f : List ℤ → ℚ) (x : List ℤ) :
    List ℤ × List ℤ × List (ℤ × ℤ) :=
  numerical_gradient_int_go f (1e-4) (List.range x.length) x (x.map (fun _ => 0)) []

/-- `gradient_function` with a fallible objective: each evaluation of `f`
may raise (`Except.error`), in which case the loop aborts at once and the
error propagates unchanged. -/
def gradient_functionE_go {ε : Type} (f : List ℚ → Except ε ℚ) (x : List ℚ) (h : ℚ)
    (perturb : List (List ℚ)) : List ℕ → List ℚ → Except ε (List ℚ)
  | [], grad => Except.ok grad
  | i :: rest, grad =>
    match f (vecAdd x (perturb.getD i [])) with
    | Except.error e => Except.error e
    | Except.ok a =>
      match f (vecSub x (perturb.getD i [])) with
      | Except.error e => Except.error e
      | Except.ok b =>
        gradient_functionE_go f x h perturb rest (grad.set i ((a - b) / (2 * h)))

/-- `gradient_function(f, x, h)` with a fallible objective. -/
def gradient_functionE {ε : Type} (f : List ℚ → Except ε ℚ) (x : List ℚ) (h : ℚ) :
    Except ε (List ℚ) :=
  gradient_functionE_go f x h ((eye x.length).map (fun row => smulV h row))
    (List.range x.length) (zeros_like x)

/-- The loop of `gradient_descent` with a fallible objective: a failure inside
the gradient computation aborts the whole run, returning no partial trajectory. -/
def gradient_descentE_go {ε : Type} (f : List ℚ → Except ε ℚ) (lr : ℚ) :
    ℕ → List ℚ → List (List ℚ) → Except ε (List ℚ × List (List ℚ))
  | 0, x, hist => Except.ok (x, hist)
  | n + 1, x, hist =>
    match gradient_functionE f x (1e-5) with
    | Except.error e => Except.error e
    | Except.ok grad =>
      let x1 := vecSub x (smulV lr grad)
      gradient_descentE_go f lr n x1 (hist ++ [x1])

/-- `gradient_descent(f, init_x, lr, n)` with a fallible objective. -/
def gradient_descentE {ε : Type} (f : List ℚ → Except ε ℚ) (init_x : List ℚ) (lr : ℚ)
    (n : ℕ) : Except ε (List ℚ × List (List ℚ)) :=
  gradient_descentE_go f lr n init_x [init_x]

/-- The objective f(x) = (x - 2)² of the convergence test, on a 1-vector. -/
def sqObjective : List ℚ → ℚ := fun v => (v.headD 0 - 2) ^ 2

/-- The cube objective f(x) = x³ on a 1-vector; its central difference at 0
equals h², so it separates different step sizes. -/
def cubeObjective : List ℚ → ℚ := fun v => (v.headD 0) ^ 3

/-- The square objective f(x) = x² on a float 1-vector. -/
def squareObjective : List ℚ → ℚ := fun v => (v.headD 0) ^ 2

/-- The square objective on an integer-dtype 1-vector. -/
def squareObjectiveInt : List ℤ → ℚ := fun v => ((v.headD 0 : ℤ) : ℚ) ^ 2

/-- The head-projection objective f(x) = x₀ on an integer-dtype 1-vector. -/
def headObjectiveInt : List ℤ → ℚ := fun v => ((v.headD 0 : ℤ) : ℚ)

/-- A constant objective on an integer-dtype vector. -/
def constObjectiveInt : List ℤ → ℚ := fun _ => 5

/-- The same constant objective on a float vector. -/
def constObjective : List ℚ → ℚ := fun _ => 5

/-! Helper lemmas about the list-level primitives. -/

lemma length_eyeRow (n i : ℕ) : (eyeRow n i).length = n := by
  simp [eyeRow]

lemma length_zeros_like (x : List ℚ) : (zeros_like x).length = x.length := by
  simp [zeros_like]

lemma length_smulV (c : ℚ) (v : List ℚ) : (smulV c v).length = v.length := by
  simp [smulV]

lemma set_getD_self {α : Type} (d : α) :
    ∀ (x : List α) (i : ℕ), i < x.length → x.set i (x.getD i d) = x := by
  intro x
  induction x with
  | nil => intro i h; simp at h
  | cons a xs ih =>
    intro i h
    cases i with
    | zero => simp
    | succ i => simpa using ih i (by simpa using h)

lemma set_set_set_restore {α : Type} (d : α) (x : List α) (i : ℕ) (a b : α) :
    ((x.set i a).set i b).set i (x.getD i d) = x := by
  rw [List.set_set, List.set_set]
  by_cases hi : i < x.length
  · exact set_getD_self d x i hi
  · exact List.set_eq_of_length_le (le_of_not_lt hi)

lemma foldl_set_getElem? {α : Type} (v : ℕ → α) :
    ∀ (l : List ℕ) (z : List α) (i : ℕ),
      (l.foldl (fun g j => g.set j (v j)) z)[i]? =
        if i ∈ l ∧ i < z.length then some (v i) else z[i]? := by
  intro l
  induction l with
  | nil => intro z i; simp
  | cons j l ih =>
    intro z i
    rw [List.foldl_cons, ih (z.set j (v j)) i, List.length_set]
    by_cases h1 : i ∈ l ∧ i < z.length
    · simp [h1, h1.1, h1.2]
    · rw [if_neg h1, List.getElem?_set]
      by_cases hij : j = i
      · subst hij
        by_cases hj : j < z.length
        · simp [hj]
        · simp [hj, List.getElem?_eq_none (le_of_not_lt hj)]
      · simp only [if_neg hij]
        have : ¬(i ∈ j :: l ∧ i < z.length) := by
          intro hc
          rcases hc with ⟨hm, hlen⟩
          rcases List.mem_cons.mp hm with h | h
          · exact hij h.symm
          · exact h1 ⟨h, hlen⟩
        rw [if_neg this]

lemma length_foldl_set {α : Type} (v : ℕ → α) :
    ∀ (l : List ℕ) (z : List α), (l.foldl (fun g j => g.set j (v j)) z).length = z.length := by
  intro l
  induction l with
  | nil => intro z; rfl
  | cons j l ih => intro z; rw [List.foldl_cons, ih, List.length_set]

lemma foldl_set_range_eq_map {α : Type} (v : ℕ → α) (n : ℕ) (z : List α)
    (hz : z.length = n) :
    (List.range n).foldl (fun g j => g.set j (v j)) z = (List.range n).map v := by
  apply List.ext_getElem?
  intro i
  rw [foldl_set_getElem?, List.getElem?_map]
  by_cases hi : i < n
  · simp [hi, List.mem_range, hz, List.getElem?_range hi]
  · have h1 : ¬(i ∈ List.range n ∧ i < z.length) := by
      intro hc; exact hi (List.mem_range.mp hc.1)
    rw [if_neg h1]
    have hz1 : z.length ≤ i := by omega
    have hr : (List.range n).length ≤ i := by simpa using (by omega : n ≤ i)
    simp [List.getElem?_eq_none hz1, List.getElem?_eq_none hr]

/-- The central-difference entry computed by `gradient_function` at
coordinate `i`: perturbation by `h` times the standard basis vector. -/
def gradEntry (f : List ℚ → ℚ) (x : List ℚ) (h : ℚ) (i : ℕ) : ℚ :=
  (f (vecAdd x (smulV h (eyeRow x.length i))) - f (vecSub x (smulV h (eyeRow x.length i)))) /
    (2 * h)

lemma eye_getD (n i : ℕ) (hi : i < n) : (eye n).getD i [] = eyeRow n i := by
  simp [eye, List.getD_eq_getElem?_getD, List.getElem?_map, List.getElem?_range hi]

lemma perturb_getD (n i : ℕ) (h : ℚ) (hi : i < n) :
    ((eye n).map (fun row => smulV h row)).getD i [] = smulV h (eyeRow n i) := by
  have h1 : (eye n)[i]? = some (eyeRow n i) := by
    simp [eye, List.getElem?_map, List.getElem?_range hi]
  simp [List.getD_eq_getElem?_getD, List.getElem?_map, h1]

lemma gradient_function_eq_map (f : List ℚ → ℚ) (x : List ℚ) (h : ℚ) :
    gradient_function f x h = (List.range x.length).map (gradEntry f x h) := by
  show (List.range x.length).foldl _ (zeros_like x) = _
  have hstep :
      (fun (g : List ℚ) (i : ℕ) =>
          g.set i
            ((f (vecAdd x (((eye x.length).map (fun row => smulV h row)).getD i [])) -
                f (vecSub x (((eye x.length).map (fun row => smulV h row)).getD i []))) /
              (2 * h)))
        = fun (g : List ℚ) (i : ℕ) =>
            g.set i
              (if i < x.length then gradEntry f x h i
               else
                 (f (vecAdd x (((eye x.length).map (fun row => smulV h row)).getD i [])) -
                     f (vecSub x (((eye x.length).map (fun row => smulV h row)).getD i []))) /
                   (2 * h)) := by
    funext g i
    by_cases hi : i < x.length
    · rw [if_pos hi, gradEntry, perturb_getD x.length i h hi]
    · rw [if_neg hi]
  rw [hstep, foldl_set_range_eq_map _ x.length (zeros_like x) (length_zeros_like x)]
  exact List.map_congr_left (fun i hi => by rw [if_pos (List.mem_range.mp hi)])

lemma gradient_function_length (f : List ℚ → ℚ) (x : List ℚ) (h : ℚ) :
    (gradient_function f x h).length = x.length := by
  rw [gradient_function_eq_map]; simp

lemma gradient_function_getD (f : List ℚ → ℚ) (x : List ℚ) (h : ℚ) (i : ℕ)
    (hi : i < x.length) :
    (gradient_function f x h).getD i 0 = gradEntry f x h i := by
  rw [gradient_function_eq_map]
  simp [List.getD_eq_getElem?_getD, List.getElem?_map, List.getElem?_range hi]

lemma gfT_fold_fst (f : List ℚ → ℚ) (x : List ℚ) (h : ℚ) (perturb : List (List ℚ)) :
    ∀ (l : List ℕ) (g : List ℚ) (c : List (List ℚ)),
      (l.foldl
          (fun acc i =>
            (acc.1.set i
                ((f (vecAdd x (perturb.getD i [])) - f (vecSub x (perturb.getD i []))) / (2 * h)),
              acc.2 ++ [vecAdd x (perturb.getD i []), vecSub x (perturb.getD i [])]))
          (g, c)).1
        = l.foldl
            (fun g2 i =>
              g2.set i
                ((f (vecAdd x (perturb.getD i [])) - f (vecSub x (perturb.getD i []))) / (2 * h)))
            g := by
  intro l
  induction l with
  | nil => intro g c; rfl
  | cons i l ih => intro g c; exact ih _ _

lemma gfT_fold_snd_length (f : List ℚ → ℚ) (x : List ℚ) (h : ℚ) (perturb : List (List ℚ)) :
    ∀ (l : List ℕ) (g : List ℚ) (c : List (List ℚ)),
      ((l.foldl
          (fun acc i =>
            (acc.1.set i
                ((f (vecAdd x (perturb.getD i [])) - f (vecSub x (perturb.getD i []))) / (2 * h)),
              acc.2 ++ [vecAdd x (perturb.getD i []), vecSub x (perturb.getD i [])]))
          (g, c)).2).length = c.length + 2 * l.length := by
  intro l
  induction l with
  | nil => intro g c; simp
  | cons i l ih =>
    intro g c
    rw [List.foldl_cons, ih _ _]
    simp
    omega

lemma gradient_functionT_fst (f : List ℚ → ℚ) (x : List ℚ) (h : ℚ) :
    (gradient_functionT f x h).1 = gradient_function f x h :=
  gfT_fold_fst f x h ((eye x.length).map (fun row => smulV h row))
    (List.range x.length) (zeros_like x) []

lemma gradient_functionT_count (f : List ℚ → ℚ) (x : List ℚ) (h : ℚ) :
    (gradient_functionT f x h).2.length = 2 * x.length := by
  have h1 := gfT_fold_snd_length f x h ((eye x.length).map (fun row => smulV h row))
    (List.range x.length) (zeros_like x) []
  rw [List.length_nil, List.length_range, Nat.zero_add] at h1
  exact h1

lemma gradient_descent_go_fst (f : List ℚ → ℚ) (lr : ℚ) :
    ∀ (n : ℕ) (x : List ℚ) (hist : List (List ℚ)),
      (gradient_descent_go f lr n x hist).1 = (gdStep f lr)^[n] x := by
  intro n
  induction n with
  | zero => intro x hist; rfl
  | succ n ih =>
    intro x hist
    show (gradient_descent_go f lr n (gdStep f lr x) (hist ++ [gdStep f lr x])).1 = _
    rw [ih, ← Function.iterate_succ_apply]

lemma gradient_descent_go_snd (f : List ℚ → ℚ) (lr : ℚ) :
    ∀ (n : ℕ) (x : List ℚ) (hist : List (List ℚ)),
      (gradient_descent_go f lr n x hist).2
        = hist ++ (List.range n).map (fun k => (gdStep f lr)^[k + 1] x) := by
  intro n
  induction n with
  | zero => intro x hist; simp [gradient_descent_go]
  | succ n ih =>
    intro x hist
    show (gradient_descent_go f lr n (gdStep f lr x) (hist ++ [gdStep f lr x])).2 = _
    rw [ih, List.range_succ_eq_map, List.map_cons, List.map_map, List.append_assoc,
      List.singleton_append]
    have hmap :
        (List.range n).map (fun k => (gdStep f lr)^[k + 1] (gdStep f lr x))
          = (List.range n).map ((fun k => (gdStep f lr)^[k + 1] x) ∘ Nat.succ) := by
      refine List.map_congr_left (fun k _ => ?hk)
      show (gdStep f lr)^[k + 1] (gdStep f lr x) = (gdStep f lr)^[k.succ + 1] x
      rw [← Function.iterate_succ_apply (gdStep f lr) (k + 1) x]
    rw [hmap]
    rfl

lemma gradient_descent_fst (f : List ℚ → ℚ) (init_x : List ℚ) (lr : ℚ) (n : ℕ) :
    (gradient_descent f init_x lr n).1 = (gdStep f lr)^[n] init_x :=
  gradient_descent_go_fst f lr n init_x [init_x]

lemma gradient_descent_snd (f : List ℚ → ℚ) (init_x : List ℚ) (lr : ℚ) (n : ℕ) :
    (gradient_descent f init_x lr n).2
      = (List.range (n + 1)).map (fun k => (gdStep f lr)^[k] init_x) := by
  rw [gradient_descent, gradient_descent_go_snd, List.range_succ_eq_map, List.map_cons,
    List.map_map, List.singleton_append]
  rfl

lemma numerical_gradientS_go_restores {σ : Type} (f : List ℚ → σ → ℚ × σ) (h : ℚ) :
    ∀ (l : List ℕ) (x grad : List ℚ) (s : σ),
      (numerical_gradientS_go f h l x grad s).2.1 = x := by
  intro l
  induction l with
  | nil => intro x grad s; rfl
  | cons idx rest ih =>
    intro x grad s
    rw [numerical_gradientS_go]
    rw [ih, set_set_set_restore]

lemma numerical_gradientS_go_grad_pure (g : List ℚ → ℚ) (h : ℚ) :
    ∀ (l : List ℕ) (x grad : List ℚ) (s : Unit),
      (numerical_gradientS_go (fun v s1 => (g v, s1)) h l x grad s).1
        = l.foldl
            (fun gr idx =>
              gr.set idx
                ((g (x.set idx (x.getD idx 0 + h)) - g (x.set idx (x.getD idx 0 - h))) /
                  (2 * h)))
            grad := by
  intro l
  induction l with
  | nil => intro x grad s; rfl
  | cons idx rest ih =>
    intro x grad s
    rw [numerical_gradientS_go, List.foldl_cons]
    show (numerical_gradientS_go _ h rest (((x.set idx _).set idx _).set idx (x.getD idx 0)) _ _).1 = _
    rw [set_set_set_restore, List.set_set]
    exact ih x _ s

lemma numerical_gradient_foldl (f : List ℚ → ℚ) (x : List ℚ) :
    numerical_gradient f x
      = (List.range x.length).foldl
          (fun gr idx =>
            gr.set idx
              ((f (x.set idx (x.getD idx 0 + 1e-4)) - f (x.set idx (x.getD idx 0 - 1e-4))) /
                (2 * 1e-4)))
          (zeros_like x) :=
  numerical_gradientS_go_grad_pure f (1e-4) (List.range x.length) x (zeros_like x) ()

lemma vecAdd_basis (x : List ℚ) (i : ℕ) (h : ℚ) (hi : i < x.length) :
    vecAdd x (smulV h (eyeRow x.length i)) = x.set i (x.getD i 0 + h) := by
  apply List.ext_getElem
  · simp [vecAdd, smulV, eyeRow]
  · intro j h1 h2
    have hj : j < x.length := by
      simpa [vecAdd, smulV, eyeRow] using h1
    simp only [vecAdd, smulV, eyeRow, List.getElem_zipWith, List.getElem_map,
      List.getElem_range, List.getElem_set]
    by_cases hji : j = i
    · subst hji
      rw [if_pos rfl, if_pos rfl, List.getD_eq_getElem?_getD, List.getElem?_eq_getElem hj]
      simp
    · rw [if_neg hji, if_neg (fun hc => hji hc.symm)]
      simp

lemma vecSub_basis (x : List ℚ) (i : ℕ) (h : ℚ) (hi : i < x.length) :
    vecSub x (smulV h (eyeRow x.length i)) = x.set i (x.getD i 0 - h) := by
  apply List.ext_getElem
  · simp [vecSub, smulV, eyeRow]
  · intro j h1 h2
    have hj : j < x.length := by
      simpa [vecSub, smulV, eyeRow] using h1
    simp only [vecSub, smulV, eyeRow, List.getElem_zipWith, List.getElem_map,
      List.getElem_range, List.getElem_set]
    by_cases hji : j = i
    · subst hji
      rw [if_pos rfl, if_pos rfl, List.getD_eq_getElem?_getD, List.getElem?_eq_getElem hj]
      simp
    · rw [if_neg hji, if_neg (fun hc => hji hc.symm)]
      simp

lemma numerical_gradient_eq (f : List ℚ → ℚ) (x : List ℚ) :
    numerical_gradient f x = gradient_function f x (1e-4) := by
  rw [numerical_gradient_foldl, gradient_function_eq_map,
    foldl_set_range_eq_map _ x.length (zeros_like x) (length_zeros_like x)]
  refine List.map_congr_left (fun i hi => ?hi2)
  have hi3 := List.mem_range.mp hi
  rw [gradEntry, vecAdd_basis x i _ hi3, vecSub_basis x i _ hi3]

lemma gradient_functionE_go_error {ε : Type} (f : List ℚ → Except ε ℚ) (x : List ℚ) (h : ℚ)
    (perturb : List (List ℚ)) :
    ∀ (l : List ℕ) (grad : List ℚ) (e : ε),
      gradient_functionE_go f x h perturb l grad = Except.error e →
        ∃ v, f v = Except.error e := by
  intro l
  induction l with
  | nil => intro grad e hgo; exact absurd hgo (by simp [gradient_functionE_go])
  | cons i rest ih =>
    intro grad e hgo
    rw [gradient_functionE_go] at hgo
    split at hgo
    · rename_i ea ha
      injection hgo with h2
      subst h2
      exact ⟨_, ha⟩
    · rename_i a ha
      split at hgo
      · rename_i eb hb
        injection hgo with h2
        subst h2
        exact ⟨_, hb⟩
      · rename_i b hb
        exact ih _ e hgo

lemma gradient_functionE_go_pure {ε : Type} (f : List ℚ → Except ε ℚ) (g : List ℚ → ℚ)
    (hf : ∀ v, f v = Except.ok (g v)) (x : List ℚ) (h : ℚ) (perturb : List (List ℚ)) :
    ∀ (l : List ℕ) (grad : List ℚ),
      gradient_functionE_go f x h perturb l grad
        = Except.ok
            (l.foldl
              (fun g2 i =>
                g2.set i
                  ((g (vecAdd x (perturb.getD i [])) - g (vecSub x (perturb.getD i []))) /
                    (2 * h)))
              grad) := by
  intro l
  induction l with
  | nil => intro grad; rfl
  | cons i rest ih =>
    intro grad
    rw [gradient_functionE_go, hf, hf, List.foldl_cons]
    exact ih _

lemma gradient_functionE_error {ε : Type} (f : List ℚ → Except ε ℚ) (x : List ℚ) (h : ℚ)
    (e : ε) (he : gradient_functionE f x h = Except.error e) : ∃ v, f v = Except.error e :=
  gradient_functionE_go_error f x h _ _ _ e he

lemma gradient_functionE_pure {ε : Type} (f : List ℚ → Except ε ℚ) (g : List ℚ → ℚ)
    (hf : ∀ v, f v = Except.ok (g v)) (x : List ℚ) (h : ℚ) :
    gradient_functionE f x h = Except.ok (gradient_function g x h) :=
  gradient_functionE_go_pure f g hf x h _ _ _

lemma gradient_descentE_go_error {ε : Type} (f : List ℚ → Except ε ℚ) (lr : ℚ) :
    ∀ (n : ℕ) (x : List ℚ) (hist : List (List ℚ)) (e : ε),
      gradient_descentE_go f lr n x hist = Except.error e →
        ∃ v, f v = Except.error e := by
  intro n
  induction n with
  | zero => intro x hist e hgo; exact absurd hgo (by simp [gradient_descentE_go])
  | succ n ih =>
    intro x hist e hgo
    rw [gradient_descentE_go] at hgo
    split at hgo
    · rename_i eg hg
      injection hgo with h2
      subst h2
      exact gradient_functionE_error f x (1e-5) _ hg
    · rename_i grad hg
      exact ih _ _ e hgo

lemma gradient_descentE_go_pure {ε : Type} (f : List ℚ → Except ε ℚ) (g : List ℚ → ℚ)
    (hf : ∀ v, f v = Except.ok (g v)) (lr : ℚ) :
    ∀ (n : ℕ) (x : List ℚ) (hist : List (List ℚ)),
      gradient_descentE_go f lr n x hist = Except.ok (gradient_descent_go g lr n x hist) := by
  intro n
  induction n with
  | zero => intro x hist; rfl
  | succ n ih =>
    intro x hist
    rw [gradient_descentE_go, gradient_descent_go,
      gradient_functionE_pure f g hf x (1e-5)]
    exact ih _ _

lemma gradient_descentE_error {ε : Type} (f : List ℚ → Except ε ℚ) (init_x : List ℚ)
    (lr : ℚ) (n : ℕ) (e : ε) (he : gradient_descentE f init_x lr n = Except.error e) :
    ∃ v, f v = Except.error e :=
  gradient_descentE_go_error f lr n init_x [init_x] e he

lemma gradient_descentE_pure {ε : Type} (f : List ℚ → Except ε ℚ) (g : List ℚ → ℚ)
    (hf : ∀ v, f v = Except.ok (g v)) (init_x : List ℚ) (lr : ℚ) (n : ℕ) :
    gradient_descentE f init_x lr n = Except.ok (gradient_descent g init_x lr n) :=
  gradient_descentE_go_pure f g hf lr n init_x [init_x]

lemma numerical_gradient_int_go_log (f : List ℤ → ℚ) (h : ℚ) :
    ∀ (l : List ℕ) (x grad : List ℤ) (log : List (ℤ × ℤ)),
      (numerical_gradient_int_go f h l x grad log).2.2
        = log ++
            l.map (fun i => (truncQ ((x.getD i 0 : ℚ) + h), truncQ ((x.getD i 0 : ℚ) - h))) := by
  intro l
  induction l with
  | nil => intro x grad log; simp [numerical_gradient_int_go]
  | cons idx rest ih =>
    intro x grad log
    rw [numerical_gradient_int_go]
    show (numerical_gradient_int_go f h rest
        (((x.set idx _).set idx _).set idx (x.getD idx 0)) _ _).2.2 = _
    rw [set_set_set_restore, ih, List.map_cons, List.append_assoc, List.singleton_append]

lemma numerical_gradient_int_log (f : List ℤ → ℚ) (x : List ℤ) :
    (numerical_gradient_int f x).2.2
      = (List.range x.length).map
          (fun i => (truncQ ((x.getD i 0 : ℚ) + 1e-4), truncQ ((x.getD i 0 : ℚ) - 1e-4))) := by
  rw [numerical_gradient_int, numerical_gradient_int_go_log, List.nil_append]

lemma truncQ_int_add_small (m : ℤ) (hm : 0 ≤ m) : truncQ ((m : ℚ) + 1 / 10000) = m := by
  have h0 : (0 : ℚ) ≤ (m : ℚ) := by exact_mod_cast hm
  rw [truncQ, if_pos (by linarith), Int.floor_int_add]
  norm_num

lemma truncQ_int_sub_small (m : ℤ) (hm : 1 ≤ m) : truncQ ((m : ℚ) - 1 / 10000) = m - 1 := by
  have h0 : (1 : ℚ) ≤ (m : ℚ) := by exact_mod_cast hm
  rw [truncQ, if_pos (by linarith),
    show (m : ℚ) - 1 / 10000 = (m : ℚ) + (-1 / 10000) from by ring, Int.floor_int_add]
  norm_num
  rfl

lemma gdStep_sq (q : ℚ) : gdStep sqObjective (1/10) [q] = [4/5 * q + 2/5] := by
  rw [gdStep, gradient_function_default, gradient_function_eq_map]
  norm_num [gradEntry, eyeRow, smulV, vecAdd, vecSub, sqObjective, List.range_succ]
  ring_nf

lemma gdStep_sq_iter (k : ℕ) :
    (gdStep sqObjective (1/10))^[k] [0] = [2 - 2 * (4/5) ^ k] := by
  induction k with
  | zero => norm_num
  | succ k ih =>
    rw [Function.iterate_succ_apply', ih, gdStep_sq]
    rw [List.cons.injEq]
    constructor
    · ring
    · rfl

/-! The claims. -/

/-- C1: for every objective `f`, initial point, learning rate α and iteration
count N, `gradient_descent` performs exactly N updates x ↦ x − α·grad(f, x)
(`gdStep`), returns the point after the N-th update, and returns a trajectory
of exactly N+1 snapshots — the k-th being the point after k updates — whose
first entry is the initial point; with N = 0 this degenerates to the initial
point and a one-element trajectory. -/
theorem gradient_descent_trajectory (f : List ℚ → ℚ) (init_x : List ℚ) (α : ℚ) (N : ℕ) :
    (gradient_descent f init_x α N).1 = (gdStep f α)^[N] init_x
    ∧ (gradient_descent f init_x α N).2
        = (List.range (N + 1)).map (fun k => (gdStep f α)^[k] init_x)
    ∧ (gradient_descent f init_x α N).2.length = N + 1
    ∧ (gradient_descent f init_x α N).2.headD [] = init_x := by
  refine ⟨gradient_descent_fst f init_x α N, gradient_descent_snd f init_x α N, ?h3, ?h4⟩
  · rw [gradient_descent_snd]; simp
  · rw [gradient_descent_snd, List.range_succ_eq_map, List.map_cons]; rfl

/-- C2: `gradient_function` returns a gradient of the same length n as the
point, whose i-th entry (for every i < n) is the central difference
(f(x + h·e_i) − f(x − h·e_i)) / (2h) (`gradEntry`), and its instrumented run
evaluates f exactly 2n times; for n = 0 it returns the empty gradient with an
empty evaluation log (zero evaluations of f). -/
theorem gradient_function_entries (f : List ℚ → ℚ) (x : List ℚ) (h : ℚ) :
    (gradient_function f x h).length = x.length
    ∧ (∀ i, i < x.length → (gradient_function f x h).getD i 0 = gradEntry f x h i)
    ∧ (gradient_functionT f x h).2.length = 2 * x.length
    ∧ (gradient_functionT f x h).1 = gradient_function f x h
    ∧ gradient_function f [] h = []
    ∧ (gradient_functionT f [] h).2 = [] :=
  ⟨gradient_function_length f x h,
   fun i hi => gradient_function_getD f x h i hi,
   gradient_functionT_count f x h,
   gradient_functionT_fst f x h,
   rfl, rfl⟩

/-- C2 witness: the entry formula at f(v) = v₀², x = [3, 4], h = 1, i = 0 with
its bound discharged concretely, and the n = 0 conclusions at the same f. -/
theorem gradient_function_entries_witness :
    (gradient_function squareObjective [3, 4] 1).getD 0 0
        = gradEntry squareObjective [3, 4] 1 0
    ∧ gradient_function squareObjective [] 1 = []
    ∧ (gradient_functionT squareObjective [] 1).2 = [] :=
  ⟨(gradient_function_entries squareObjective [3, 4] 1).2.1 0 (by decide),
   (gradient_function_entries squareObjective [] 1).2.2.2.2.1,
   (gradient_function_entries squareObjective [] 1).2.2.2.2.2⟩

/-- C3: `numerical_gradient` leaves the input array exactly as it was — each
perturbation is reverted — for every objective, pure or stateful (the state σ
threads through every evaluation of f, so f may behave differently per call). -/
theorem numerical_gradient_restores_input {σ : Type} (f : List ℚ → σ → ℚ × σ)
    (x : List ℚ) (s : σ) : (numerical_gradientS f x s).2.1 = x :=
  numerical_gradientS_go_restores f (1e-4) (List.range x.length) x (zeros_like x) s

/-- C4: `numerical_derivative` returns exactly (f(x+h) − f(x−h)) / (2h), and
its state-threaded run evaluates f exactly twice with the same value; the
point x is a scalar passed by value, so it cannot be modified. -/
theorem numerical_derivative_central (f : ℚ → ℚ) (x h : ℚ) :
    numerical_derivative f x h = (f (x + h) - f (x - h)) / (2 * h)
    ∧ (numerical_derivativeS (fun v c => (f v, c + 1)) x h 0).2 = 2
    ∧ (numerical_derivativeS (fun v c => (f v, c + 1)) x h 0).1 = numerical_derivative f x h :=
  ⟨rfl, rfl, rfl⟩

/-- C5 counterexample: on f(v) = v₀³ at x = [0] the no-step call of
`gradient_function` (whose central difference at 0 equals h²) disagrees with an
explicit step of 1e-4, so the default step of `gradient_function` is not 1e-4. -/
theorem gradient_function_default_not_1e4 :
    gradient_function_default cubeObjective [0] ≠ gradient_function cubeObjective [0] (1e-4) := by
  rw [gradient_function_default, gradient_function_eq_map, gradient_function_eq_map]
  norm_num [gradEntry, eyeRow, smulV, vecAdd, vecSub, cubeObjective, List.range_succ]

/-- C5 amended: when no step is supplied, `numerical_derivative` and
`gradient_function` use the default h = 1e-5, while the multi-index routine
`numerical_gradient` fixes h = 1e-4 — on flat float vectors it computes exactly
`gradient_function` at step 1e-4. -/
theorem default_step_sizes (f : ℚ → ℚ) (g : List ℚ → ℚ) (x : ℚ) (v : List ℚ) :
    numerical_derivative_default f x = numerical_derivative f x (1e-5)
    ∧ gradient_function_default g v = gradient_function g v (1e-5)
    ∧ numerical_gradient g v = gradient_function g v (1e-4) :=
  ⟨rfl, rfl, numerical_gradient_eq g v⟩

/-- C6: gradient descent on f(x) = (x − 2)² from 0 with α = 0.1 and N = 100
ends within 1e-3 of 2, with a trajectory of 101 snapshots starting at [0]. -/
theorem gradient_descent_converges_quadratic :
    |(gradient_descent sqObjective [0] (1/10) 100).1.headD 0 - 2| < 1/1000
    ∧ (gradient_descent sqObjective [0] (1/10) 100).2.length = 101
    ∧ (gradient_descent sqObjective [0] (1/10) 100).2.headD [] = [0] := by
  refine ⟨?h1, ?h2, ?h3⟩
  · rw [gradient_descent_fst, gdStep_sq_iter]
    rw [show ([2 - 2 * ((4:ℚ)/5) ^ 100] : List ℚ).headD 0 = 2 - 2 * ((4:ℚ)/5) ^ 100 from rfl]
    rw [show (2 - 2 * ((4:ℚ)/5) ^ 100) - 2 = -(2 * (4/5) ^ 100) from by ring, abs_neg,
      abs_of_nonneg (by positivity)]
    norm_num
  · rw [gradient_descent_snd]; simp
  · rw [gradient_descent_snd, List.range_succ_eq_map, List.map_cons]; rfl

/-- C7: `gradient_function` never mutates the caller's point: it computes on a
fresh float copy (`gradient_functionM` returns the caller buffer untouched and
the same gradient), and the output has the same shape as x. -/
theorem gradient_function_preserves_caller (f : List ℚ → ℚ) (x : List ℚ) (h : ℚ) :
    (gradient_functionM f x h).2 = x
    ∧ (gradient_functionM f x h).1 = gradient_function f x h
    ∧ (gradient_function f x h).length = x.length := by
  refine ⟨rfl, ?h2, gradient_function_length f x h⟩
  show gradient_function f (x.map (fun v => v)) h = gradient_function f x h
  rw [List.map_id']

/-- C8: a failure raised by the objective propagates unchanged to the direct
caller of the gradient or optimization routine (the resulting error is one
produced by f itself, and the aborted call returns no partial gradient or
trajectory), while an objective that never fails yields exactly the pure
results. -/
theorem objective_failure_propagates {ε : Type} (f : List ℚ → Except ε ℚ)
    (g : List ℚ → ℚ) (x init_x : List ℚ) (h α : ℚ) (N : ℕ) (e : ε) :
    (gradient_functionE f x h = Except.error e → ∃ v, f v = Except.error e)
    ∧ (gradient_descentE f init_x α N = Except.error e → ∃ v, f v = Except.error e)
    ∧ ((∀ v, f v = Except.ok (g v)) →
        gradient_functionE f x h = Except.ok (gradient_function g x h)
        ∧ gradient_descentE f init_x α N = Except.ok (gradient_descent g init_x α N)) :=
  ⟨gradient_functionE_error f x h e,
   gradient_descentE_error f init_x α N e,
   fun hf => ⟨gradient_functionE_pure f g hf x h, gradient_descentE_pure f g hf init_x α N⟩⟩

/-- C8 witness: the failing-objective conclusion at the constantly failing f
on x = [1], h = 1, and the pure conclusions at the constant objective 5. -/
theorem objective_failure_propagates_witness :
    (∃ v : List ℚ, (fun _ : List ℚ => (Except.error () : Except Unit ℚ)) v = Except.error ())
    ∧ (gradient_functionE (fun _ : List ℚ => (Except.ok 5 : Except Unit ℚ)) [1] 1
          = Except.ok (gradient_function (fun _ => (5 : ℚ)) [1] 1)
        ∧ gradient_descentE (fun _ : List ℚ => (Except.ok 5 : Except Unit ℚ)) [1] 1 1
          = Except.ok (gradient_descent (fun _ => (5 : ℚ)) [1] 1 1)) :=
  ⟨(objective_failure_propagates (fun _ => Except.error ()) (fun _ => (0 : ℚ))
      [1] [1] 1 1 1 ()).1 rfl,
   (objective_failure_propagates (fun _ : List ℚ => (Except.ok 5 : Except Unit ℚ))
      (fun _ => (5 : ℚ)) [1] [1] 1 1 1 ()).2.2 (fun _ => rfl)⟩

/-- C9: every iteration of `gradient_descent` takes its gradient from
`gradient_function` at that routine's default step 1e-5 — the final point and
every snapshot are iterates of x ↦ x − α·gradient_function(f, x, 1e-5) — and
this is observably different from the multi-index routine
`numerical_gradient`, which uses step 1e-4. -/
theorem gradient_descent_uses_default_vector_gradient (f : List ℚ → ℚ)
    (init_x : List ℚ) (α : ℚ) (N : ℕ) :
    (gradient_descent f init_x α N).1
        = (fun x => vecSub x (smulV α (gradient_function f x (1e-5))))^[N] init_x
    ∧ (gradient_descent f init_x α N).2
        = (List.range (N + 1)).map
            (fun k => (fun x => vecSub x (smulV α (gradient_function f x (1e-5))))^[k] init_x)
    ∧ gradient_function cubeObjective [0] (1e-5) ≠ numerical_gradient cubeObjective [0] := by
  refine ⟨gradient_descent_fst f init_x α N, gradient_descent_snd f init_x α N, ?h3⟩
  rw [numerical_gradient_eq, gradient_function_eq_map, gradient_function_eq_map]
  norm_num [gradEntry, eyeRow, smulV, vecAdd, vecSub, cubeObjective, List.range_succ]

/-- C10 counterexample: on the integer-dtype array [0], the value stored by
`x[idx] = tmp_val - h` is 0 — the same integer as the original entry, not a
different one — and on a constant objective the integer routine's gradient [0]
coincides with the float-coerced `gradient_function` result instead of
differing from it. -/
theorem numerical_gradient_int_zero_entry :
    ((numerical_gradient_int headObjectiveInt [0]).2.2.getD 0 (1, 1)).2 = (0 : ℤ)
    ∧ ((numerical_gradient_int constObjectiveInt [0]).1.map (fun z => (z : ℚ)))
        = gradient_function constObjective ([0].map (fun z : ℤ => (z : ℚ))) (1e-5) := by
  constructor
  · norm_num [numerical_gradient_int, numerical_gradient_int_go, headObjectiveInt, truncQ,
      List.range_succ]
  · norm_num [numerical_gradient_int, numerical_gradient_int_go, constObjectiveInt, truncQ,
      List.range_succ, gradient_function_eq_map, gradEntry, eyeRow, smulV, vecAdd, vecSub,
      constObjective]

/-- C10 amended: in the integer-dtype run of `numerical_gradient`, every store
goes through the integer element type; at a probed entry that is ≥ 1, the
stored value of x[i] + h truncates back to x[i] and the stored value of
x[i] − h truncates to x[i] − 1, and the returned gradient can then differ from
the float-coerced `gradient_function` result on the same values — e.g. for
f(v) = v₀² at x = [3] the integer routine returns [25000] where
`gradient_function` returns [6]. -/
theorem numerical_gradient_int_truncation (f : List ℤ → ℚ) (x : List ℤ) (i : ℕ)
    (hi : i < x.length) (hpos : 1 ≤ x.getD i 0) :
    (numerical_gradient_int f x).2.2.getD i (0, 0) = (x.getD i 0, x.getD i 0 - 1)
    ∧ ((numerical_gradient_int squareObjectiveInt [3]).1.map (fun z => (z : ℚ)))
        ≠ gradient_function squareObjective ([3].map (fun z : ℤ => (z : ℚ))) (1e-5) := by
  constructor
  · rw [numerical_gradient_int_log, List.getD_eq_getElem?_getD, List.getElem?_map,
      List.getElem?_range hi]
    rw [show (1e-4 : ℚ) = 1/10000 from by norm_num]
    simp only [Option.map_some', Option.getD_some]
    rw [truncQ_int_add_small _ (le_trans zero_le_one hpos), truncQ_int_sub_small _ hpos]
  · norm_num [numerical_gradient_int, numerical_gradient_int_go, squareObjectiveInt, truncQ,
      List.range_succ, gradient_function_eq_map, gradEntry, eyeRow, smulV, vecAdd, vecSub,
      squareObjective]

/-- C10 witness: the amended conclusion at f(v) = v₀², x = [3], i = 0. -/
theorem numerical_gradient_int_truncation_witness :
    (numerical_gradient_int squareObjectiveInt [3]).2.2.getD 0 (0, 0)
        = (([3] : List ℤ).getD 0 0, ([3] : List ℤ).getD 0 0 - 1)
    ∧ ((numerical_gradient_int squareObjectiveInt [3]).1.map (fun z => (z : ℚ)))
        ≠ gradient_function squareObjective ([3].map (fun z : ℤ => (z : ℚ))) (1e-5) :=
  numerical_gradient_int_truncation squareObjectiveInt [3] 0 (by decide) (by decide)

/-- C9 witness: the conclusion at the constant objective, initial point [1],
α = 1, N = 0. -/
theorem gradient_descent_uses_default_vector_gradient_witness :
    (gradient_descent constObjective [1] 1 0).1
        = (fun x => vecSub x (smulV 1 (gradient_function constObjective x (1e-5))))^[0] [1]
    ∧ (gradient_descent constObjective [1] 1 0).2
        = (List.range (0 + 1)).map
            (fun k =>
              (fun x => vecSub x (smulV 1 (gradient_function constObjective x (1e-5))))^[k] [1])
    ∧ gradient_function cubeObjective [0] (1e-5) ≠ numerical_gradient cubeObjective [0] :=
  gradient_descent_uses_default_vector_gradient constObjective [1] 1 0
